import Mathlib

/-!
Shallow embedding of the PyPSO engine core (`branches/0.22/pypso/Pso.py`).

The engine state is the attribute record of `PSO.Singleton`; numeric
attributes are modelled over `ℚ` (exact arithmetic in place of Python
floats), Python `None` as `Option.none`, and raised Python exceptions as
`Except.error`.  Collaborator modules (`Consts`, `Util`, the topology
classes and report adapters) are not part of the given source tree; the
few facts about them that the engine relies on are modelled from the
spec and marked as such below.
-/

namespace PsoSpec

/-- Python exception values raised by the engine paths under study.
`outOfFuel` is a modelling artifact standing for a non-terminating loop
(the embedding of the `while` loop is fuel-indexed). -/
inductive PyErr
  | typeError (msg : String)
  | indexError (msg : String)
  | attributeError (msg : String)
  | zeroDivisionError
  | outOfFuel
deriving DecidableEq

/-- Modelled from the spec: `Consts.psoType` enumerates the three PSO
variants BASIC, CONSTRICTED, INERTIA (spec section 3, Engine). -/
inductive PsoType
  | BASIC
  | CONSTRICTED
  | INERTIA
deriving DecidableEq

/-- Modelled from the spec: `Consts.minimaxType` enumerates the two
optimization directions (spec section 3, Engine). -/
inductive Minimax
  | minimize
  | maximize
deriving DecidableEq

/-- Modelled from the spec: the topology classes (GlobalTopology,
LocalTopology) live outside the given source file. -/
inductive TopologyClass
  | GlobalTopology
  | LocalTopology
deriving DecidableEq

/-- Modelled from the spec: a topology object.  Its swarm internals are
out of scope; the abstract state records how many times each mutating
operation has been applied, which is enough to express the ordering and
state-preservation claims about the engine loop. -/
structure Topology where
  cls : TopologyClass
  posUpdates : ℕ
  infoUpdates : ℕ
  stores : ℕ
  inits : ℕ
deriving DecidableEq

/-- Modelled from the spec: a report adapter exposes `statsGenFreq` and
the `open` / `insert` / `saveAndClose` operations (spec section 6). -/
structure ReportAdapter where
  statsGenFreq : ℕ
deriving DecidableEq

/-- Modelled from the spec: the fitness function is an opaque callable;
only its presence and `__name__` matter to the engine code under study. -/
structure FitFun where
  fname : String
deriving DecidableEq

/-- A Python value stored in one of the bounds lists: either a tuple of
rationals or a plain number.  `definePositionBounds` checks only
`type(v) is tuple`, so arity is not constrained by the code. -/
inductive PyVal
  | tup (xs : List ℚ)
  | num (q : ℚ)
deriving DecidableEq

/-- The attribute record of `PSO.Singleton` (`Pso.py` lines 61-94). -/
structure EngineState where
  psoType : PsoType
  topology : Option Topology
  c1 : ℚ
  c2 : ℚ
  timeSteps : ℕ
  interactiveMode : Bool
  currentStep : ℕ
  function : Option FitFun
  inertiaFactorMinus : Option ℚ
  inertiaFactor : Option ℚ
  positionBounds : List PyVal
  initialPositionBounds : List PyVal
  velocityBounds : List PyVal
  minimax : Minimax
  reportAdapter : Option ReportAdapter
deriving DecidableEq

/-- Python truthiness of an optional float attribute: `None` and `0.0`
are falsy, every other float is truthy. -/
def falsyQ (o : Option ℚ) : Bool :=
  match o with
  | none => true
  | some q => decide (q = 0)

/-- `PSO.Singleton.checkParametersSet` (`Pso.py` lines 337-344).
`Util.raiseException(msg, TypeError)` is modelled from the spec as
raising a descriptive `TypeError` carrying the message.  Topology and
fitness-function objects are ordinary instances, hence truthy whenever
present; the three bounds attributes are lists, truthy iff non-empty;
the two inertia attributes are floats-or-None, tested by Python
truthiness (`falsyQ`). -/
def checkParametersSet (s : EngineState) : Except PyErr EngineState :=
  if s.topology = none ∨ s.function = none then
    .error (.typeError "Topology/Evaluation fuction not yet defined.")
  else if s.psoType = PsoType.INERTIA ∧ (falsyQ s.inertiaFactorMinus ∨ falsyQ s.inertiaFactor) then
    .error (.typeError "Set the setInitialInertiaFactor() for the Inertia weight.")
  else if s.initialPositionBounds = [] ∨ s.velocityBounds = [] ∨ s.positionBounds = [] then
    .error (.typeError "The Position/Velocity/InitialPos Bounds not yet defined.")
  else
    .ok s

/-- `PSO.Singleton.setInitialInertiaFactor` (`Pso.py` lines 198-201):
when the variant is INERTIA it sets
`inertiaFactorMinus = abs(start - end) / timeSteps` and
`inertiaFactor = start`; otherwise the body is skipped and the call
returns normally with the state unchanged. -/
def setInitialInertiaFactor (s : EngineState) (inertiaFactorStart inertiaFactorEnd : ℚ) :
    EngineState :=
  if s.psoType = PsoType.INERTIA then
    { s with
      inertiaFactorMinus := some (|inertiaFactorStart - inertiaFactorEnd| / (s.timeSteps : ℚ)),
      inertiaFactor := some inertiaFactorStart }
  else s

/-- `PSO.Singleton.updateInertiaFactor` (`Pso.py` lines 204-205):
`self.inertiaFactor = self.inertiaFactor - self.inertiaFactorMinus`.
If either attribute is still `None`, Python raises a `TypeError` from
the unsupported `-` operand. -/
def updateInertiaFactorE (s : EngineState) : Except PyErr EngineState :=
  match s.inertiaFactor, s.inertiaFactorMinus with
  | some a, some b => .ok { s with inertiaFactor := some (a - b) }
  | _, _ => .error (.typeError "unsupported operand type(s) for -: NoneType")

/-- `PSO.Singleton.initializeBounds` (`Pso.py` lines 150-154): appends
`dimensions` default entries to each of the three bounds lists (the
Python code appends in a loop, so repeated calls keep growing the
lists). -/
def initBounds (s : EngineState) (dimensions : ℕ) : EngineState :=
  { s with
    initialPositionBounds :=
      s.initialPositionBounds ++ List.replicate dimensions (PyVal.tup [0, 0]),
    positionBounds := s.positionBounds ++ List.replicate dimensions (PyVal.tup [0, 0]),
    velocityBounds := s.velocityBounds ++ List.replicate dimensions (PyVal.num 0) }

/-- The assignment loop `for i in range(first, last): lst[i] = v`,
phrased over the start index and the remaining count.  Assignment to an
index beyond the list raises `IndexError`, aborting the loop there. -/
def assignRange (v : PyVal) : ℕ → ℕ → List PyVal → Except PyErr (List PyVal)
  | _, 0, l => .ok l
  | i, Nat.succ n, l =>
    if i < l.length then assignRange v (i + 1) n (l.set i v)
    else .error (.indexError "list assignment index out of range")

/-- `PSO.Singleton.definePositionBounds` (`Pso.py` lines 160-164): the
only validation is `type(minMaxValue) is tuple`; any tuple (of any
arity) is then assigned to every index in `range(first, last)`. -/
def definePositionBounds (s : EngineState) (firstDimension lastDimension : ℕ)
    (minMaxValue : PyVal) : Except PyErr EngineState :=
  match minMaxValue with
  | PyVal.num _ => .error (.typeError "minMaxValue type must be a tuple (a,b).")
  | PyVal.tup _ =>
    match assignRange minMaxValue firstDimension (lastDimension - firstDimension)
        s.positionBounds with
    | .error e => .error e
    | .ok l => .ok { s with positionBounds := l }

/-- `PSO.Singleton.defineInitialPositionBounds` (`Pso.py` lines 170-174):
same shape as `definePositionBounds`, over `initialPositionBounds`. -/
def defineInitialPositionBounds (s : EngineState) (firstDimension lastDimension : ℕ)
    (minMaxValue : PyVal) : Except PyErr EngineState :=
  match minMaxValue with
  | PyVal.num _ => .error (.typeError "minMaxValue type must be a tuple (a,b).")
  | PyVal.tup _ =>
    match assignRange minMaxValue firstDimension (lastDimension - firstDimension)
        s.initialPositionBounds with
    | .error e => .error e
    | .ok l => .ok { s with initialPositionBounds := l }

/-- `PSO.Singleton.defineVelocityBounds` (`Pso.py` lines 191-193): no
type check at all, just the assignment loop over `velocityBounds`. -/
def defineVelocityBounds (s : EngineState) (firstDimension lastDimension : ℕ)
    (value : PyVal) : Except PyErr EngineState :=
  match assignRange value firstDimension (lastDimension - firstDimension)
      s.velocityBounds with
  | .error e => .error e
  | .ok l => .ok { s with velocityBounds := l }

/-- Modelled from the spec: `Topology.updateParticlesPosition` advances
every particle one step; abstracted as bumping the operation counter. -/
def updateParticlesPositionT (t : Topology) : Topology :=
  { t with posUpdates := t.posUpdates + 1 }

/-- Modelled from the spec: `Topology.updateParticlesInformation`
re-evaluates fitness and informer bests; abstracted as a counter bump. -/
def updateParticlesInformationT (t : Topology) : Topology :=
  { t with infoUpdates := t.infoUpdates + 1 }

/-- Modelled from the spec: `LocalTopology.storeBestParticle` persists
the step's best particle; abstracted as a counter bump. -/
def storeBestParticleT (t : Topology) : Topology :=
  { t with stores := t.stores + 1 }

/-- Observable events emitted by the engine: the per-step operations of
`constructSolution` and the statistics / reporting side effects of
`execute`. -/
inductive Ev
  | reportOpen
  | topInit
  | updatePos
  | updateInfo
  | storeBest
  | inertiaDecay
  | incStep
  | printStats (step : ℕ)
  | timeElapsed
  | insertReport (step : ℕ)
  | saveAndClose
deriving DecidableEq

/-- Whether the engine's topology is (exactly) a `LocalTopology`, the
`type(self.topology) is pypso.LocalTopology.LocalTopology` check of
`Pso.py` line 318. -/
def topIsLocal (s : EngineState) : Bool :=
  match s.topology with
  | some t => t.cls == TopologyClass.LocalTopology
  | none => false

/-- The event trace of one `constructSolution` call as a function of the
pre-call state. -/
def traceOf (s : EngineState) : List Ev :=
  [Ev.updatePos, Ev.updateInfo]
    ++ (if topIsLocal s then [Ev.storeBest] else [])
    ++ (if s.psoType == PsoType.INERTIA then [Ev.inertiaDecay] else [])
    ++ [Ev.incStep]

/-- `PSO.Singleton.constructSolution` (`Pso.py` lines 314-329): update
positions, update information, `storeBestParticle` when the topology is
exactly a `LocalTopology`, inertia decay when the variant is INERTIA,
increment `currentStep`, and return `currentStep == timeSteps`.  The
third component is the event trace of the call. -/
def constructSolution (s : EngineState) : Except PyErr (EngineState × Bool × List Ev) :=
  match s.topology with
  | none => .error (.attributeError "NoneType object has no attribute updateParticlesPosition")
  | some t0 =>
    let t1 := updateParticlesInformationT (updateParticlesPositionT t0)
    let isLocal : Bool := t1.cls == TopologyClass.LocalTopology
    let t2 := if isLocal then storeBestParticleT t1 else t1
    let s1 := { s with topology := some t2 }
    let s2E := if s.psoType = PsoType.INERTIA then updateInertiaFactorE s1 else .ok s1
    match s2E with
    | .error e => .error e
    | .ok s2 =>
      let s3 := { s2 with currentStep := s2.currentStep + 1 }
      .ok (s3, decide (s3.currentStep = s3.timeSteps),
        [Ev.updatePos, Ev.updateInfo]
          ++ (if isLocal then [Ev.storeBest] else [])
          ++ (if s.psoType = PsoType.INERTIA then [Ev.inertiaDecay] else [])
          ++ [Ev.incStep])

/-- The pure state transition of one successful `constructSolution`
call (equal to it whenever the call cannot raise, see
`constructSolution_eq_step`). -/
def stepPure (s : EngineState) : EngineState :=
  match s.topology with
  | none => s
  | some t0 =>
    let t1 := updateParticlesInformationT (updateParticlesPositionT t0)
    let t2 := if t1.cls == TopologyClass.LocalTopology then storeBestParticleT t1 else t1
    let s1 := { s with topology := some t2 }
    let s2 :=
      if s.psoType = PsoType.INERTIA then
        { s1 with
          inertiaFactor := some (s1.inertiaFactor.getD 0 - s1.inertiaFactorMinus.getD 0) }
      else s1
    { s2 with currentStep := s2.currentStep + 1 }

/-- A state on which `constructSolution` cannot raise: the topology is
present and, under the INERTIA variant, both schedule attributes are
set. -/
def runnable (s : EngineState) : Prop :=
  s.topology ≠ none ∧
    (s.psoType = PsoType.INERTIA → s.inertiaFactorMinus ≠ none ∧ s.inertiaFactor ≠ none)

/-- The `statsGenFreq` of the configured report adapter, if any. -/
def gfOf (s : EngineState) : Option ℕ :=
  match s.reportAdapter with
  | some ad => some ad.statsGenFreq
  | none => none

/-- The adapter frequency, when present, is non-zero (Python would raise
`ZeroDivisionError` on `currentStep % 0`). -/
def adOk (s : EngineState) : Prop :=
  match s.reportAdapter with
  | some ad => ad.statsGenFreq ≠ 0
  | none => True

/-- The statistics / reporting part of one loop iteration of
`PSO.Singleton.execute` (`Pso.py` lines 261-267), as the list of emitted
events: the whole block — including the periodic report dump — is
guarded by `freq_stats != 0`; inside it, `printStats` fires when
`currentStep % freq_stats == 0` or `currentStep == 1`, and
`dumpStatsReport` fires when an adapter is set and
`currentStep % statsGenFreq == 0`.  The interactive-mode keyboard poll
(lines 269-299) has no effect on engine state and emits no event. -/
def loopBody (freq : ℕ) (s : EngineState) : Except PyErr (List Ev) :=
  if freq ≠ 0 then
    let e1 := if s.currentStep % freq = 0 ∨ s.currentStep = 1 then
        [Ev.printStats s.currentStep] else []
    match s.reportAdapter with
    | some ad =>
      if ad.statsGenFreq = 0 then .error PyErr.zeroDivisionError
      else if s.currentStep % ad.statsGenFreq = 0 then
        .ok (e1 ++ [Ev.insertReport s.currentStep])
      else .ok e1
    | none => .ok e1
  else .ok []

/-- Pure version of `loopBody` (equal to it whenever the adapter
frequency is sound, see `loopBody_eq`). -/
def bodyEvsPure (freq : ℕ) (gf : Option ℕ) (step : ℕ) : List Ev :=
  if freq ≠ 0 then
    (if step % freq = 0 ∨ step = 1 then [Ev.printStats step] else [])
      ++ (match gf with
          | some g => if step % g = 0 then [Ev.insertReport step] else []
          | none => [])
  else []

/-- Concatenated loop-body events for the `count` consecutive steps
starting at step `start`. -/
def loopEvs (freq : ℕ) (gf : Option ℕ) : ℕ → ℕ → List Ev
  | _, 0 => []
  | start, Nat.succ count => bodyEvsPure freq gf start ++ loopEvs freq gf (start + 1) count

/-- The `while not self.constructSolution():` loop of
`PSO.Singleton.execute` (`Pso.py` lines 259-302), fuel-indexed.  The
external interrupt is modelled by an oracle `intr`: `intr = some k`
means a `KeyboardInterrupt` is delivered right after the
`constructSolution` call that brings `currentStep` to `k`; the
`except KeyboardInterrupt` handler swallows it, so the loop returns
normally with the partial state. -/
def execLoop (freq : ℕ) (intr : Option ℕ) : ℕ → EngineState → Except PyErr (EngineState × List Ev)
  | 0, _ => .error PyErr.outOfFuel
  | Nat.succ fuel, s =>
    match constructSolution s with
    | .error e => .error e
    | .ok (s1, d, _) =>
      if d then .ok (s1, [])
      else if intr = some s1.currentStep then .ok (s1, [])
      else
        match loopBody freq s1 with
        | .error e => .error e
        | .ok evs =>
          match execLoop freq intr fuel s1 with
          | .error e => .error e
          | .ok (s2, evs2) => .ok (s2, evs ++ evs2)

/-- `PSO.Singleton.initialize` (`Pso.py` lines 332-334):
`self.topology.initialize()`, abstracted as bumping the topology's init
counter. -/
def topInitState (s : EngineState) : EngineState :=
  match s.topology with
  | some t => { s with topology := some { t with inits := t.inits + 1 } }
  | none => s

/-- `PSO.Singleton.execute` (`Pso.py` lines 247-311): check parameters,
open the report adapter when configured, run `initialize`, run the step
loop (with the interrupt oracle `intr`), then — after the loop, whether
it ended by termination or by a caught interrupt — `printStats` and
`printTimeElapsed` when `freq_stats != 0`, and, when an adapter is
configured and `currentStep % statsGenFreq == 0`, a final
`dumpStatsReport` followed by `saveAndClose`. -/
def execute (s0 : EngineState) (freq : ℕ) (intr : Option ℕ) (fuel : ℕ) :
    Except PyErr (EngineState × List Ev) :=
  match checkParametersSet s0 with
  | .error e => .error e
  | .ok s =>
    let evOpen : List Ev := match s.reportAdapter with
      | some _ => [Ev.reportOpen]
      | none => []
    match execLoop freq intr fuel (topInitState s) with
    | .error e => .error e
    | .ok (s1, evs) =>
      let evFinal : List Ev :=
        if freq ≠ 0 then [Ev.printStats s1.currentStep, Ev.timeElapsed] else []
      match s1.reportAdapter with
      | some ad =>
        if ad.statsGenFreq = 0 then .error PyErr.zeroDivisionError
        else if s1.currentStep % ad.statsGenFreq = 0 then
          .ok (s1, evOpen ++ Ev.topInit ::
            (evs ++ evFinal ++ [Ev.insertReport s1.currentStep, Ev.saveAndClose]))
        else .ok (s1, evOpen ++ Ev.topInit :: (evs ++ evFinal))
      | none => .ok (s1, evOpen ++ Ev.topInit :: (evs ++ evFinal))

/-- The insert-report events among the loop-body events for `count`
steps starting at `start`: one per step divisible by `g`, provided
`freq_stats` is non-zero (the dump is nested under that check). -/
def insertsIn (freq g : ℕ) : ℕ → ℕ → List Ev
  | _, 0 => []
  | start, Nat.succ count =>
    (if freq ≠ 0 ∧ start % g = 0 then [Ev.insertReport start] else [])
      ++ insertsIn freq g (start + 1) count

/-- Report-related events (`open` / `insert` / `saveAndClose`). -/
def isReportEv : Ev → Bool
  | Ev.reportOpen => true
  | Ev.insertReport _ => true
  | Ev.saveAndClose => true
  | _ => false

/-- The class-level slot `PSO._iInstance` together with a count of the
`PSO()` handles constructed so far (`Pso.py` lines 54-55, 360-366).  The
shared `PSO.Singleton` instance is modelled by its attribute record, an
association list from attribute name to value. -/
structure ProcState where
  iInstance : Option (List (String × ℤ))
  handleCount : ℕ
deriving DecidableEq

/-- A handle returned by evaluating `PSO()`.  Per `PSO.__init__`, its
instance `__dict__` holds exactly one entry, `EventHandler_instance`,
referring to the shared `PSO._iInstance`; since that slot always refers
to the single shared instance, the handle carries only its identity. -/
structure PSOHandle where
  hid : ℕ
deriving DecidableEq

/-- Setting an attribute on the shared `PSO.Singleton` instance:
replace any previous binding of the name. -/
def attrsSet (m : List (String × ℤ)) (a : String) (v : ℤ) : List (String × ℤ) :=
  (a, v) :: m.filter (fun p => p.1 ≠ a)

/-- Reading an attribute of the shared `PSO.Singleton` instance. -/
def attrsGet (m : List (String × ℤ)) (a : String) : Option ℤ :=
  match m.find? (fun p => p.1 = a) with
  | some p => some p.2
  | none => none

/-- `PSO.__init__` (`Pso.py` lines 360-366): create `PSO.Singleton()`
only when `PSO._iInstance is None`, then hand out a new handle whose
dict refers to the (now unconditionally existing) shared instance.  The
fresh singleton's attribute record is the (here unconstrained, empty)
default configuration written by `Singleton.__init__`. -/
def psoConstruct (p : ProcState) : ProcState × PSOHandle :=
  ({ iInstance := some (p.iInstance.getD []), handleCount := p.handleCount + 1 },
   ⟨p.handleCount⟩)

/-- `PSO.__setattr__` (`Pso.py` lines 375-376): every attribute write
through any handle is delegated to `PSO._iInstance`. -/
def psoSetattr (p : ProcState) (_h : PSOHandle) (a : String) (v : ℤ) : ProcState :=
  { p with iInstance := p.iInstance.map (fun m => attrsSet m a v) }

/-- `PSO.__getattr__` (`Pso.py` lines 371-372): an attribute read
through any handle (other than the handle's own `EventHandler_instance`
slot) is delegated to `PSO._iInstance`. -/
def psoGetattr (p : ProcState) (_h : PSOHandle) (a : String) : Option ℤ :=
  match p.iInstance with
  | some m => attrsGet m a
  | none => none

/-- A process in which no `PSO()` has been constructed yet. -/
def freshProc : ProcState := { iInstance := none, handleCount := 0 }

/-- A concrete global topology object. -/
def topoG : Topology :=
  { cls := TopologyClass.GlobalTopology, posUpdates := 0, infoUpdates := 0,
    stores := 0, inits := 0 }

/-- A concrete local topology object. -/
def topoL : Topology :=
  { cls := TopologyClass.LocalTopology, posUpdates := 0, infoUpdates := 0,
    stores := 0, inits := 0 }

/-- A fully configured BASIC-variant engine state used as the base of
the concrete test states: two time steps, one dimension of bounds, no
report adapter. -/
def baseState : EngineState :=
  { psoType := PsoType.BASIC, topology := some topoG, c1 := 2, c2 := 2,
    timeSteps := 2, interactiveMode := false, currentStep := 0,
    function := some { fname := "sphere" }, inertiaFactorMinus := none,
    inertiaFactor := none, positionBounds := [PyVal.tup [0, 1]],
    initialPositionBounds := [PyVal.tup [0, 1]],
    velocityBounds := [PyVal.num 1], minimax := Minimax.minimize,
    reportAdapter := none }

/-- Fully configured INERTIA engine whose schedule was set with
`setInitialInertiaFactor(7, 7)` (equal start and end): both schedule
attributes are set, yet `inertiaFactorMinus` is `0.0` and therefore
falsy in Python.  `claim_C1_counterexample` proves this record equal to
the result of that `setInitialInertiaFactor` call. -/
def cexC1 : EngineState :=
  { baseState with
    psoType := PsoType.INERTIA,
    inertiaFactorMinus := some 0,
    inertiaFactor := some 7 }

/-- The raise condition of claim C1, stated exactly as the claim words
it: topology unset, or fitness function unset, or INERTIA variant with
the schedule (inertiaFactorMinus / inertiaFactor) not set, or an empty
bounds sequence. -/
def claimC1Raises (s : EngineState) : Prop :=
  s.topology = none ∨ s.function = none ∨
    (s.psoType = PsoType.INERTIA ∧ (s.inertiaFactorMinus = none ∨ s.inertiaFactor = none)) ∨
    s.initialPositionBounds = [] ∨ s.velocityBounds = [] ∨ s.positionBounds = []

/-- The raise condition actually implemented by `checkParametersSet`:
as claim C1, except that the INERTIA schedule test is Python truthiness,
so a schedule that was set to falsy values (`inertiaFactorMinus == 0.0`
or `inertiaFactor == 0.0`) also raises. -/
def codeC1Raises (s : EngineState) : Prop :=
  s.topology = none ∨ s.function = none ∨
    (s.psoType = PsoType.INERTIA ∧ (falsyQ s.inertiaFactorMinus ∨ falsyQ s.inertiaFactor)) ∨
    s.initialPositionBounds = [] ∨ s.velocityBounds = [] ∨ s.positionBounds = []

/-- Well-formedness of a `(min, max)` bound value as the spec means it:
a tuple of exactly two components. -/
def wellFormedPair : PyVal → Bool
  | PyVal.tup xs => xs.length == 2
  | PyVal.num _ => false

/-- A three-element tuple: not a well-formed `(min, max)` pair, yet it
passes the `type(minMaxValue) is tuple` check of the code. -/
def badTuple : PyVal := PyVal.tup [1, 2, 3]

/-- INERTIA-variant engine state for the inertia-schedule claims, before
the schedule is set. -/
def inertiaBase : EngineState := { baseState with psoType := PsoType.INERTIA, timeSteps := 1 }

/-- Concrete run configuration for the normal-termination reporting
claims: three steps, printing frequency handled per theorem, report
adapter with `statsGenFreq = 2` (which does not divide 3). -/
def cexC8 : EngineState :=
  { baseState with timeSteps := 3, reportAdapter := some { statsGenFreq := 2 } }

/-- Concrete run configuration for the decoupling claim C9: adapter with
`statsGenFreq = 1`, so the claim expects an insert at every step. -/
def cexC9 : EngineState :=
  { baseState with timeSteps := 3, reportAdapter := some { statsGenFreq := 1 } }

/-- Concrete run configuration for the interrupt claim C7: five steps,
adapter with `statsGenFreq = 2`, interrupted after step 3. -/
def cexC7 : EngineState :=
  { baseState with timeSteps := 5, reportAdapter := some { statsGenFreq := 2 } }

/-- Events of a successful `execute` run (empty list on error). -/
def okEvs : Except PyErr (EngineState × List Ev) → List Ev
  | .ok p => p.2
  | .error _ => []

/-- Final `currentStep` of a successful `execute` run (`0` on error). -/
def okStep : Except PyErr (EngineState × List Ev) → ℕ
  | .ok p => p.1.currentStep
  | .error _ => 0

/-- Whether an `execute` run returned normally (no propagated
exception). -/
def isOkRun : Except PyErr (EngineState × List Ev) → Bool
  | .ok _ => true
  | .error _ => false

/-- INERTIA engine over a local topology with a non-degenerate schedule,
exercising every branch of the `constructSolution` trace. -/
def cexC3 : EngineState :=
  { baseState with
    topology := some topoL,
    psoType := PsoType.INERTIA,
    inertiaFactorMinus := some 1,
    inertiaFactor := some 7 }

theorem falsyQ_of_none (o : Option ℚ) (h : o = none) : falsyQ o = true := by
  rw [h]; rfl

theorem checkOk_runnable (s : EngineState) (h : checkParametersSet s = .ok s) :
    runnable s := by
  unfold checkParametersSet at h
  by_cases h1 : s.topology = none ∨ s.function = none
  · rw [if_pos h1] at h
    exact Except.noConfusion h
  · rw [if_neg h1] at h
    by_cases h2 : s.psoType = PsoType.INERTIA ∧
        (falsyQ s.inertiaFactorMinus ∨ falsyQ s.inertiaFactor)
    · rw [if_pos h2] at h
      exact Except.noConfusion h
    · refine ⟨fun hn => h1 (Or.inl hn), fun hI => ⟨?_, ?_⟩⟩
      · intro hn
        exact h2 ⟨hI, Or.inl (falsyQ_of_none _ hn)⟩
      · intro hn
        exact h2 ⟨hI, Or.inr (falsyQ_of_none _ hn)⟩

theorem constructSolution_eq_step (s : EngineState) (h : runnable s) :
    constructSolution s =
      .ok (stepPure s, decide (s.currentStep + 1 = s.timeSteps), traceOf s) := by
  obtain ⟨ht, hi⟩ := h
  match hs : s.topology with
  | none => exact absurd hs ht
  | some t0 =>
    by_cases hI : s.psoType = PsoType.INERTIA
    · obtain ⟨hm, hf⟩ := hi hI
      obtain ⟨m, hm⟩ := Option.ne_none_iff_exists'.mp hm
      obtain ⟨f, hf⟩ := Option.ne_none_iff_exists'.mp hf
      simp only [constructSolution, stepPure, traceOf, topIsLocal, hs, hI,
        updateInertiaFactorE, updateParticlesPositionT, updateParticlesInformationT,
        hm, hf, if_true, beq_iff_eq] <;>
        (try (split <;> simp [hm, hf]))
    · simp only [constructSolution, stepPure, traceOf, topIsLocal, hs, hI,
        updateParticlesPositionT, updateParticlesInformationT, if_false, beq_iff_eq] <;>
        (try (split <;> simp [hI]))

theorem stepPure_psoType (s : EngineState) : (stepPure s).psoType = s.psoType := by
  unfold stepPure
  cases s.topology <;> simp <;> split <;> rfl

theorem stepPure_timeSteps (s : EngineState) : (stepPure s).timeSteps = s.timeSteps := by
  unfold stepPure
  cases s.topology <;> simp <;> split <;> rfl

theorem stepPure_reportAdapter (s : EngineState) :
    (stepPure s).reportAdapter = s.reportAdapter := by
  unfold stepPure
  cases s.topology <;> simp <;> split <;> rfl

theorem stepPure_function (s : EngineState) : (stepPure s).function = s.function := by
  unfold stepPure
  cases s.topology <;> simp <;> split <;> rfl

theorem stepPure_inertiaFactorMinus (s : EngineState) :
    (stepPure s).inertiaFactorMinus = s.inertiaFactorMinus := by
  unfold stepPure
  cases s.topology <;> simp <;> split <;> rfl

theorem stepPure_topology_ne_none (s : EngineState) (h : s.topology ≠ none) :
    (stepPure s).topology ≠ none := by
  unfold stepPure
  match hs : s.topology with
  | none => exact absurd hs h
  | some t => simp <;> split <;> simp

theorem stepPure_currentStep (s : EngineState) (h : s.topology ≠ none) :
    (stepPure s).currentStep = s.currentStep + 1 := by
  unfold stepPure
  match hs : s.topology with
  | none => exact absurd hs h
  | some t => simp <;> split <;> rfl

theorem stepPure_inertiaFactor_ne_none (s : EngineState) (h : s.inertiaFactor ≠ none) :
    (stepPure s).inertiaFactor ≠ none := by
  unfold stepPure
  cases hs : s.topology <;> simp <;> (try split_ifs) <;> simp_all

theorem runnable_step (s : EngineState) (h : runnable s) : runnable (stepPure s) := by
  obtain ⟨ht, hi⟩ := h
  refine ⟨stepPure_topology_ne_none s ht, fun hI => ?_⟩
  rw [stepPure_psoType] at hI
  obtain ⟨hm, hf⟩ := hi hI
  exact ⟨by rw [stepPure_inertiaFactorMinus]; exact hm,
    stepPure_inertiaFactor_ne_none s hf⟩

theorem runnable_stepN (s : EngineState) (h : runnable s) (n : ℕ) :
    runnable (stepPure^[n] s) := by
  induction n with
  | zero => simpa using h
  | succ n ih =>
    rw [Function.iterate_succ_apply']
    exact runnable_step _ ih

theorem stepN_currentStep (s : EngineState) (h : runnable s) (n : ℕ) :
    (stepPure^[n] s).currentStep = s.currentStep + n := by
  induction n with
  | zero => simp
  | succ n ih =>
    rw [Function.iterate_succ_apply',
      stepPure_currentStep _ (runnable_stepN s h n).1, ih]
    omega

theorem stepN_timeSteps (s : EngineState) (n : ℕ) :
    (stepPure^[n] s).timeSteps = s.timeSteps := by
  induction n with
  | zero => simp
  | succ n ih => rw [Function.iterate_succ_apply', stepPure_timeSteps, ih]

theorem stepN_reportAdapter (s : EngineState) (n : ℕ) :
    (stepPure^[n] s).reportAdapter = s.reportAdapter := by
  induction n with
  | zero => simp
  | succ n ih => rw [Function.iterate_succ_apply', stepPure_reportAdapter, ih]

theorem stepN_psoType (s : EngineState) (n : ℕ) :
    (stepPure^[n] s).psoType = s.psoType := by
  induction n with
  | zero => simp
  | succ n ih => rw [Function.iterate_succ_apply', stepPure_psoType, ih]

theorem stepN_inertiaFactorMinus (s : EngineState) (n : ℕ) :
    (stepPure^[n] s).inertiaFactorMinus = s.inertiaFactorMinus := by
  induction n with
  | zero => simp
  | succ n ih => rw [Function.iterate_succ_apply', stepPure_inertiaFactorMinus, ih]

theorem adOk_of_reportAdapter_eq (s s2 : EngineState)
    (h : s2.reportAdapter = s.reportAdapter) (ha : adOk s) : adOk s2 := by
  unfold adOk at *
  rw [h]
  exact ha

theorem gfOf_of_reportAdapter_eq (s s2 : EngineState)
    (h : s2.reportAdapter = s.reportAdapter) : gfOf s2 = gfOf s := by
  unfold gfOf
  rw [h]

theorem loopBody_eq (freq : ℕ) (s : EngineState) (h : adOk s) :
    loopBody freq s = .ok (bodyEvsPure freq (gfOf s) s.currentStep) := by
  unfold adOk at h
  cases hr : s.reportAdapter with
  | none =>
    simp only [loopBody, bodyEvsPure, gfOf, hr]
    split_ifs <;> simp
  | some ad =>
    rw [hr] at h
    simp only [loopBody, bodyEvsPure, gfOf, hr]
    split_ifs <;> simp_all

theorem execLoop_run (freq : ℕ) :
    ∀ fuel s, runnable s → adOk s →
      s.currentStep < s.timeSteps → s.timeSteps - s.currentStep ≤ fuel →
      execLoop freq none fuel s =
        .ok (stepPure^[s.timeSteps - s.currentStep] s,
          loopEvs freq (gfOf s) (s.currentStep + 1) (s.timeSteps - 1 - s.currentStep)) := by
  intro fuel
  induction fuel with
  | zero =>
    intro s _ _ hlt hle
    omega
  | succ fuel ih =>
    intro s hr had hlt hle
    have hstep : (stepPure s).currentStep = s.currentStep + 1 :=
      stepPure_currentStep s hr.1
    have htS : (stepPure s).timeSteps = s.timeSteps := stepPure_timeSteps s
    have hrA : (stepPure s).reportAdapter = s.reportAdapter := stepPure_reportAdapter s
    simp only [execLoop, constructSolution_eq_step s hr]
    by_cases hd : s.currentStep + 1 = s.timeSteps
    · have h1 : s.timeSteps - s.currentStep = 1 := by omega
      have h2 : s.timeSteps - 1 - s.currentStep = 0 := by omega
      simp [hd, h1, h2, loopEvs]
    · have hnext : loopBody freq (stepPure s) =
          .ok (bodyEvsPure freq (gfOf s) (s.currentStep + 1)) := by
        rw [loopBody_eq freq (stepPure s) (adOk_of_reportAdapter_eq s _ hrA had),
          gfOf_of_reportAdapter_eq s _ hrA, hstep]
      have hih := ih (stepPure s) (runnable_step s hr)
        (adOk_of_reportAdapter_eq s _ hrA had)
        (by rw [hstep, htS]; omega) (by rw [hstep, htS]; omega)
      rw [hstep, htS, gfOf_of_reportAdapter_eq s _ hrA] at hih
      simp only [hd, decide_eq_true_eq, if_false, hnext, hih,
        reduceCtorEq, ite_false]
      have h3 : s.timeSteps - (s.currentStep + 1) + 1 = s.timeSteps - s.currentStep := by
        omega
      have h4 : s.timeSteps - 1 - s.currentStep = (s.timeSteps - 1 - (s.currentStep + 1)) + 1 := by
        omega
      rw [← h3, Function.iterate_succ_apply, h4, loopEvs]

theorem execLoop_intr (freq k : ℕ) :
    ∀ fuel s, runnable s → adOk s →
      s.currentStep < k → k < s.timeSteps → k - s.currentStep ≤ fuel →
      execLoop freq (some k) fuel s =
        .ok (stepPure^[k - s.currentStep] s,
          loopEvs freq (gfOf s) (s.currentStep + 1) (k - 1 - s.currentStep)) := by
  intro fuel
  induction fuel with
  | zero =>
    intro s _ _ hlt _ hle
    omega
  | succ fuel ih =>
    intro s hr had hlt hkT hle
    have hstep : (stepPure s).currentStep = s.currentStep + 1 :=
      stepPure_currentStep s hr.1
    have htS : (stepPure s).timeSteps = s.timeSteps := stepPure_timeSteps s
    have hrA : (stepPure s).reportAdapter = s.reportAdapter := stepPure_reportAdapter s
    have hd : ¬(s.currentStep + 1 = s.timeSteps) := by omega
    simp only [execLoop, constructSolution_eq_step s hr]
    by_cases hk : k = s.currentStep + 1
    · have h1 : k - s.currentStep = 1 := by omega
      have h2 : k - 1 - s.currentStep = 0 := by omega
      simp [hd, hstep, hk, h1, h2, loopEvs]
    · have hnext : loopBody freq (stepPure s) =
          .ok (bodyEvsPure freq (gfOf s) (s.currentStep + 1)) := by
        rw [loopBody_eq freq (stepPure s) (adOk_of_reportAdapter_eq s _ hrA had),
          gfOf_of_reportAdapter_eq s _ hrA, hstep]
      have hih := ih (stepPure s) (runnable_step s hr)
        (adOk_of_reportAdapter_eq s _ hrA had)
        (by rw [hstep]; omega) (by rw [htS]; omega) (by rw [hstep]; omega)
      rw [hstep, gfOf_of_reportAdapter_eq s _ hrA] at hih
      have hks : ¬((some k : Option ℕ) = some ((stepPure s).currentStep)) := by
        rw [hstep]
        simp
        omega
      simp only [hd, decide_eq_true_eq, if_false, hks, hnext, hih,
        reduceCtorEq, ite_false]
      have h3 : k - (s.currentStep + 1) + 1 = k - s.currentStep := by omega
      have h4 : k - 1 - s.currentStep = (k - 1 - (s.currentStep + 1)) + 1 := by omega
      rw [← h3, Function.iterate_succ_apply, h4, loopEvs]

theorem mem_bodyEvsPure (freq : ℕ) (gf : Option ℕ) (st : ℕ) (e : Ev)
    (h : e ∈ bodyEvsPure freq gf st) :
    e = Ev.printStats st ∨ e = Ev.insertReport st := by
  cases gf with
  | none =>
    unfold bodyEvsPure at h
    split_ifs at h <;> simp_all
  | some g =>
    unfold bodyEvsPure at h
    split_ifs at h <;> simp_all <;> tauto

theorem mem_loopEvs (freq : ℕ) (gf : Option ℕ) (e : Ev) :
    ∀ n a, e ∈ loopEvs freq gf a n →
      ∃ st, (e = Ev.printStats st ∨ e = Ev.insertReport st) ∧ a ≤ st ∧ st < a + n := by
  intro n
  induction n with
  | zero =>
    intro a h
    simp [loopEvs] at h
  | succ n ih =>
    intro a h
    rw [loopEvs] at h
    rcases List.mem_append.mp h with h1 | h2
    · exact ⟨a, mem_bodyEvsPure freq gf a e h1, le_refl a, by omega⟩
    · obtain ⟨st, hst, hb1, hb2⟩ := ih (a + 1) h2
      exact ⟨st, hst, by omega, by omega⟩

theorem filter_bodyEvsPure_some (freq g st : ℕ) :
    (bodyEvsPure freq (some g) st).filter isReportEv =
      (if freq ≠ 0 ∧ st % g = 0 then [Ev.insertReport st] else []) := by
  unfold bodyEvsPure
  split_ifs <;> simp_all [isReportEv]

theorem filter_bodyEvsPure_none (freq st : ℕ) :
    (bodyEvsPure freq none st).filter isReportEv = [] := by
  unfold bodyEvsPure
  split_ifs <;> simp [isReportEv]

theorem filter_loopEvs_some (freq g : ℕ) :
    ∀ n a, (loopEvs freq (some g) a n).filter isReportEv = insertsIn freq g a n := by
  intro n
  induction n with
  | zero =>
    intro a
    rfl
  | succ n ih =>
    intro a
    simp only [loopEvs, insertsIn, List.filter_append, ih, filter_bodyEvsPure_some]

theorem filter_loopEvs_none (freq : ℕ) :
    ∀ n a, (loopEvs freq none a n).filter isReportEv = [] := by
  intro n
  induction n with
  | zero =>
    intro a
    rfl
  | succ n ih =>
    intro a
    simp only [loopEvs, List.filter_append, ih, filter_bodyEvsPure_none,
      List.nil_append]

theorem topInitState_currentStep (s : EngineState) :
    (topInitState s).currentStep = s.currentStep := by
  unfold topInitState
  cases s.topology <;> simp

theorem topInitState_timeSteps (s : EngineState) :
    (topInitState s).timeSteps = s.timeSteps := by
  unfold topInitState
  cases s.topology <;> simp

theorem topInitState_reportAdapter (s : EngineState) :
    (topInitState s).reportAdapter = s.reportAdapter := by
  unfold topInitState
  cases s.topology <;> simp

theorem topInitState_runnable (s : EngineState) (h : runnable s) :
    runnable (topInitState s) := by
  obtain ⟨ht, hi⟩ := h
  unfold topInitState
  cases hs : s.topology with
  | none => exact absurd hs ht
  | some t => exact ⟨by simp, by simpa using hi⟩

theorem execute_run (s : EngineState) (freq fuel : ℕ)
    (hok : checkParametersSet s = .ok s) (had : adOk s)
    (hc : s.currentStep = 0) (hT : 1 ≤ s.timeSteps) (hf : s.timeSteps ≤ fuel) :
    execute s freq none fuel =
      .ok (stepPure^[s.timeSteps] (topInitState s),
        (match s.reportAdapter with
          | some _ => [Ev.reportOpen]
          | none => ([] : List Ev)) ++
        Ev.topInit ::
          (loopEvs freq (gfOf s) 1 (s.timeSteps - 1)
            ++ (if freq ≠ 0 then [Ev.printStats s.timeSteps, Ev.timeElapsed] else [])
            ++ (match s.reportAdapter with
                | some ad =>
                  if s.timeSteps % ad.statsGenFreq = 0 then
                    [Ev.insertReport s.timeSteps, Ev.saveAndClose]
                  else []
                | none => []))) ∧
    (stepPure^[s.timeSteps] (topInitState s)).currentStep = s.timeSteps ∧
    (stepPure^[s.timeSteps] (topInitState s)).reportAdapter = s.reportAdapter := by
  have hrun0 := checkOk_runnable s hok
  have hrun : runnable (topInitState s) := topInitState_runnable s hrun0
  have hadI : adOk (topInitState s) :=
    adOk_of_reportAdapter_eq s _ (topInitState_reportAdapter s) had
  have hcI : (topInitState s).currentStep = 0 := by
    rw [topInitState_currentStep, hc]
  have htI : (topInitState s).timeSteps = s.timeSteps := topInitState_timeSteps s
  have hloop := execLoop_run freq fuel (topInitState s) hrun hadI
    (by rw [hcI, htI]; omega) (by rw [hcI, htI]; omega)
  rw [hcI, htI, gfOf_of_reportAdapter_eq s _ (topInitState_reportAdapter s),
    Nat.sub_zero, Nat.zero_add] at hloop
  have hcs : (stepPure^[s.timeSteps] (topInitState s)).currentStep = s.timeSteps := by
    rw [stepN_currentStep _ hrun, hcI, Nat.zero_add]
  have hra : (stepPure^[s.timeSteps] (topInitState s)).reportAdapter = s.reportAdapter := by
    rw [stepN_reportAdapter, topInitState_reportAdapter]
  refine ⟨?_, hcs, hra⟩
  unfold execute
  rw [hok]
  simp only [hloop, hcs, hra]
  cases hAd : s.reportAdapter with
  | none => simp
  | some ad =>
    have hg : ad.statsGenFreq ≠ 0 := by
      unfold adOk at had
      rw [hAd] at had
      exact had
    simp only [hg, if_false, ite_false]
    by_cases hmod : s.timeSteps % ad.statsGenFreq = 0
    · simp [hmod]
    · simp [hmod]

theorem execute_intr (s : EngineState) (freq fuel k : ℕ)
    (hok : checkParametersSet s = .ok s) (had : adOk s)
    (hc : s.currentStep = 0) (hk1 : 1 ≤ k) (hkT : k < s.timeSteps)
    (hf : s.timeSteps ≤ fuel) :
    execute s freq (some k) fuel =
      .ok (stepPure^[k] (topInitState s),
        (match s.reportAdapter with
          | some _ => [Ev.reportOpen]
          | none => ([] : List Ev)) ++
        Ev.topInit ::
          (loopEvs freq (gfOf s) 1 (k - 1)
            ++ (if freq ≠ 0 then [Ev.printStats k, Ev.timeElapsed] else [])
            ++ (match s.reportAdapter with
                | some ad =>
                  if k % ad.statsGenFreq = 0 then
                    [Ev.insertReport k, Ev.saveAndClose]
                  else []
                | none => []))) ∧
    (stepPure^[k] (topInitState s)).currentStep = k := by
  have hrun0 := checkOk_runnable s hok
  have hrun : runnable (topInitState s) := topInitState_runnable s hrun0
  have hadI : adOk (topInitState s) :=
    adOk_of_reportAdapter_eq s _ (topInitState_reportAdapter s) had
  have hcI : (topInitState s).currentStep = 0 := by
    rw [topInitState_currentStep, hc]
  have htI : (topInitState s).timeSteps = s.timeSteps := topInitState_timeSteps s
  have hloop := execLoop_intr freq k fuel (topInitState s) hrun hadI
    (by rw [hcI]; omega) (by rw [htI]; omega) (by rw [hcI]; omega)
  rw [hcI, gfOf_of_reportAdapter_eq s _ (topInitState_reportAdapter s),
    Nat.sub_zero, Nat.zero_add] at hloop
  have hcs : (stepPure^[k] (topInitState s)).currentStep = k := by
    rw [stepN_currentStep _ hrun, hcI, Nat.zero_add]
  have hra : (stepPure^[k] (topInitState s)).reportAdapter = s.reportAdapter := by
    rw [stepN_reportAdapter, topInitState_reportAdapter]
  refine ⟨?_, hcs⟩
  unfold execute
  rw [hok]
  simp only [hloop, hcs, hra]
  cases hAd : s.reportAdapter with
  | none => simp
  | some ad =>
    have hg : ad.statsGenFreq ≠ 0 := by
      unfold adOk at had
      rw [hAd] at had
      exact had
    simp only [hg, if_false, ite_false]
    by_cases hmod : k % ad.statsGenFreq = 0
    · simp [hmod]
    · simp [hmod]

theorem stepN_topology_ne_none (s : EngineState) (h : s.topology ≠ none) (n : ℕ) :
    (stepPure^[n] s).topology ≠ none := by
  induction n with
  | zero => simpa using h
  | succ n ih =>
    rw [Function.iterate_succ_apply']
    exact stepPure_topology_ne_none _ ih

theorem stepPure_inertiaFactor_eq (s : EngineState) (m x : ℚ)
    (hI : s.psoType = PsoType.INERTIA) (ht : s.topology ≠ none)
    (hm : s.inertiaFactorMinus = some m) (hx : s.inertiaFactor = some x) :
    (stepPure s).inertiaFactor = some (x - m) := by
  unfold stepPure
  match hs : s.topology with
  | none => exact absurd hs ht
  | some t =>
    simp only [hI, if_true]
    simp [hm, hx]

theorem stepN_inertiaFactor (s : EngineState) (m x : ℚ)
    (hI : s.psoType = PsoType.INERTIA) (ht : s.topology ≠ none)
    (hm : s.inertiaFactorMinus = some m) (hx : s.inertiaFactor = some x) :
    ∀ k : ℕ, (stepPure^[k] s).inertiaFactor = some (x - (k : ℚ) * m) := by
  intro k
  induction k with
  | zero => simpa using hx
  | succ k ih =>
    rw [Function.iterate_succ_apply']
    have h1 : (stepPure^[k] s).psoType = PsoType.INERTIA := by
      rw [stepN_psoType, hI]
    have h2 : (stepPure^[k] s).inertiaFactorMinus = some m := by
      rw [stepN_inertiaFactorMinus, hm]
    have h3 := stepPure_inertiaFactor_eq (stepPure^[k] s) m (x - (k : ℚ) * m)
      h1 (stepN_topology_ne_none s ht k) h2 ih
    rw [h3]
    congr 1
    push_cast
    ring

theorem assignRange_ok (v : PyVal) :
    ∀ n i l, i + n ≤ l.length →
      ∃ l2, assignRange v i n l = .ok l2 ∧ l2.length = l.length ∧
        ∀ j, l2[j]? = if i ≤ j ∧ j < i + n then some v else l[j]? := by
  intro n
  induction n with
  | zero =>
    intro i l _
    refine ⟨l, rfl, rfl, fun j => ?_⟩
    rw [if_neg (by omega)]
  | succ n ih =>
    intro i l hlen
    have hi : i < l.length := by omega
    obtain ⟨l2, h1, h2, h3⟩ := ih (i + 1) (l.set i v)
      (by rw [List.length_set]; omega)
    refine ⟨l2, ?_, by rw [h2, List.length_set], fun j => ?_⟩
    · unfold assignRange
      rw [if_pos hi]
      exact h1
    · rw [h3 j]
      by_cases hj1 : i + 1 ≤ j ∧ j < i + 1 + n
      · rw [if_pos hj1, if_pos (by omega)]
      · rw [if_neg hj1]
        by_cases hj2 : j = i
        · rw [hj2, if_pos (by omega)]
          exact List.getElem?_set_eq_of_lt v hi
        · rw [if_neg (by omega)]
          exact List.getElem?_set_ne (by omega)

theorem assignRange_err (v : PyVal) :
    ∀ n i l, 0 < n → l.length < i + n →
      assignRange v i n l = .error (PyErr.indexError "list assignment index out of range") := by
  intro n
  induction n with
  | zero =>
    intro i l h0 _
    omega
  | succ n ih =>
    intro i l _ hlen
    unfold assignRange
    by_cases hi : i < l.length
    · rw [if_pos hi]
      have hn : 0 < n := by omega
      exact ih (i + 1) (l.set i v) hn (by rw [List.length_set]; omega)
    · rw [if_neg hi]

/-- Claim C1, counterexample: a fully configured INERTIA engine whose
schedule was set with equal start and end factors has
`inertiaFactorMinus == 0.0`; the schedule IS set, so the claim predicts
a normal return, yet `checkParametersSet` raises (Python truthiness
treats `0.0` as unset). -/
theorem claim_C1_counterexample :
    setInitialInertiaFactor { baseState with psoType := PsoType.INERTIA } 7 7 = cexC1 ∧
    (∃ m, checkParametersSet cexC1 = .error (PyErr.typeError m)) ∧
    cexC1.inertiaFactorMinus = some 0 ∧ cexC1.inertiaFactor = some 7 ∧
    ¬ claimC1Raises cexC1 := by
  refine ⟨?_, ⟨"Set the setInitialInertiaFactor() for the Inertia weight.", rfl⟩,
    by decide, by decide, by unfold claimC1Raises; decide⟩
  simp only [setInitialInertiaFactor, cexC1, baseState]
  norm_num

/-- Claim C1 (amended): `checkParametersSet` raises a descriptive
`TypeError` iff the topology is unset, or the fitness function is
unset, or the variant is INERTIA and `inertiaFactorMinus` or
`inertiaFactor` is unset OR equal to `0.0` (Python falsiness), or any
of the three bound sequences is empty; otherwise it returns normally
with the state unchanged. -/
theorem claim_C1_amended (s : EngineState) :
    (checkParametersSet s = .ok s ↔ ¬ codeC1Raises s) ∧
    ((∃ m, checkParametersSet s = .error (PyErr.typeError m)) ↔ codeC1Raises s) := by
  unfold checkParametersSet codeC1Raises
  by_cases h1 : s.topology = none ∨ s.function = none
  · rw [if_pos h1]
    refine ⟨⟨fun h => Except.noConfusion h, fun hn => absurd (by tauto) hn⟩,
      ⟨fun _ => by tauto, fun _ => ⟨_, rfl⟩⟩⟩
  · rw [if_neg h1]
    by_cases h2 : s.psoType = PsoType.INERTIA ∧
        (falsyQ s.inertiaFactorMinus ∨ falsyQ s.inertiaFactor)
    · rw [if_pos h2]
      refine ⟨⟨fun h => Except.noConfusion h, fun hn => absurd (by tauto) hn⟩,
        ⟨fun _ => by tauto, fun _ => ⟨_, rfl⟩⟩⟩
    · rw [if_neg h2]
      by_cases h3 : s.initialPositionBounds = [] ∨ s.velocityBounds = [] ∨
          s.positionBounds = []
      · rw [if_pos h3]
        refine ⟨⟨fun h => Except.noConfusion h, fun hn => absurd (by tauto) hn⟩,
          ⟨fun _ => by tauto, fun _ => ⟨_, rfl⟩⟩⟩
      · rw [if_neg h3]
        refine ⟨⟨fun _ => by tauto, fun _ => rfl⟩, ⟨?_, fun hc => absurd hc (by tauto)⟩⟩
        rintro ⟨m, hm⟩
        exact Except.noConfusion hm

/-- Claim C2: from `currentStep = 0` with a time-step budget `T >= 1`,
on a configured (runnable) engine, the `k`-th `constructSolution` call
of the run loop succeeds and returns `true` exactly when the
incremented `currentStep` equals `timeSteps`, i.e. exactly at `k = T`;
hence the `while not constructSolution()` loop of `execute` performs
exactly `T` particle-update steps and then stops. -/
theorem claim_C2 (s : EngineState) (T : ℕ) (h : runnable s)
    (hc : s.currentStep = 0) (hT : s.timeSteps = T) (hT1 : 1 ≤ T) :
    ∀ k, 1 ≤ k → k ≤ T →
      constructSolution (stepPure^[k - 1] s) =
        .ok (stepPure^[k] s, decide (k = T), traceOf (stepPure^[k - 1] s)) ∧
      (stepPure^[k] s).currentStep = k := by
  intro k hk1 hkT
  have hr := runnable_stepN s h (k - 1)
  have hcs : (stepPure^[k - 1] s).currentStep = k - 1 := by
    rw [stepN_currentStep s h (k - 1), hc, Nat.zero_add]
  have hts : (stepPure^[k - 1] s).timeSteps = T := by
    rw [stepN_timeSteps, hT]
  have hit : stepPure^[k] s = stepPure (stepPure^[k - 1] s) := by
    have hk : k = (k - 1) + 1 := by omega
    conv_lhs => rw [hk]
    rw [Function.iterate_succ_apply']
  constructor
  · rw [constructSolution_eq_step _ hr, hcs, hts, hit]
    have hk : k - 1 + 1 = k := by omega
    rw [hk]
  · rw [stepN_currentStep s h k, hc, Nat.zero_add]

/-- Claim C2, witness: on the concrete two-step base configuration the
second call is the one that returns `true`. -/
theorem claim_C2_witness :
    constructSolution (stepPure^[2 - 1] baseState) =
      .ok (stepPure^[2] baseState, decide (2 = 2), traceOf (stepPure^[2 - 1] baseState)) ∧
    (stepPure^[2] baseState).currentStep = 2 :=
  claim_C2 baseState 2 (by unfold runnable; decide) rfl rfl (by decide) 2 (by decide) (by decide)

/-- Claim C3: each `constructSolution` call emits, in this exact order,
`updateParticlesPosition`, `updateParticlesInformation`,
`storeBestParticle` exactly when the topology is a `LocalTopology`,
the inertia decay exactly when the variant is INERTIA, and finally the
`currentStep` increment, which raises `currentStep` by one. -/
theorem claim_C3 (s : EngineState) (h : runnable s) :
    constructSolution s =
      .ok (stepPure s, decide (s.currentStep + 1 = s.timeSteps),
        [Ev.updatePos, Ev.updateInfo]
          ++ (if topIsLocal s then [Ev.storeBest] else [])
          ++ (if s.psoType == PsoType.INERTIA then [Ev.inertiaDecay] else [])
          ++ [Ev.incStep]) ∧
    (stepPure s).currentStep = s.currentStep + 1 := by
  refine ⟨?_, stepPure_currentStep s h.1⟩
  rw [constructSolution_eq_step s h]
  rfl

/-- Claim C3, witness: on a local-topology INERTIA engine both optional
phases appear in the trace. -/
theorem claim_C3_witness :
    constructSolution cexC3 =
      .ok (stepPure cexC3, decide (cexC3.currentStep + 1 = cexC3.timeSteps),
        [Ev.updatePos, Ev.updateInfo]
          ++ (if topIsLocal cexC3 then [Ev.storeBest] else [])
          ++ (if cexC3.psoType == PsoType.INERTIA then [Ev.inertiaDecay] else [])
          ++ [Ev.incStep]) ∧
    (stepPure cexC3).currentStep = cexC3.currentStep + 1 :=
  claim_C3 cexC3 (by unfold runnable; decide)

/-- Claim C4, counterexample: with start 0 and end 1 on a one-step
INERTIA engine, `inertiaFactorMinus = |0-1|/1 = 1` and after the single
completed step `inertiaFactor = 0 - 1 = -1`, not the end value `1`; the
gap is `-2`, exact arithmetic, not floating-point accumulation (the
`abs` makes the decrement walk away from `end` whenever start < end). -/
theorem claim_C4_counterexample :
    inertiaBase.timeSteps = 1 ∧
    (stepPure^[1] (setInitialInertiaFactor inertiaBase 0 1)).inertiaFactor = some (-1) ∧
    some (-1 : ℚ) ≠ some (1 : ℚ) := by
  refine ⟨rfl, ?_, by norm_num⟩
  have hm : (setInitialInertiaFactor inertiaBase 0 1).inertiaFactorMinus = some 1 := by
    simp only [setInitialInertiaFactor, inertiaBase, baseState]
    norm_num
  have hx : (setInitialInertiaFactor inertiaBase 0 1).inertiaFactor = some 0 := by
    simp only [setInitialInertiaFactor, inertiaBase, baseState]
    norm_num
  have hI : (setInitialInertiaFactor inertiaBase 0 1).psoType = PsoType.INERTIA := by
    simp only [setInitialInertiaFactor, inertiaBase, baseState]
    norm_num
  have ht : (setInitialInertiaFactor inertiaBase 0 1).topology ≠ none := by
    simp only [setInitialInertiaFactor, inertiaBase, baseState]
    simp
  have h := stepN_inertiaFactor (setInitialInertiaFactor inertiaBase 0 1) 1 0 hI ht hm hx 1
  rw [h]
  norm_num

/-- Claim C4 (amended): on an INERTIA engine, `setInitialInertiaFactor`
sets `inertiaFactorMinus = |start - end| / timeSteps` once, sets
`inertiaFactor = start`, and each completed step decrements it by
`inertiaFactorMinus`; after `timeSteps` completed steps `inertiaFactor`
equals `start - |start - end|` exactly, which is the end value `end`
when `start >= end` (and `2*start - end`, not `end`, when
`start < end`). -/
theorem claim_C4_amended (s : EngineState) (a b : ℚ)
    (hI : s.psoType = PsoType.INERTIA) (ht : s.topology ≠ none) (hT : 1 ≤ s.timeSteps) :
    (setInitialInertiaFactor s a b).inertiaFactorMinus =
      some (|a - b| / (s.timeSteps : ℚ)) ∧
    (setInitialInertiaFactor s a b).inertiaFactor = some a ∧
    (∀ k : ℕ, (stepPure^[k] (setInitialInertiaFactor s a b)).inertiaFactor =
      some (a - (k : ℚ) * (|a - b| / (s.timeSteps : ℚ)))) ∧
    (stepPure^[s.timeSteps] (setInitialInertiaFactor s a b)).inertiaFactor =
      some (a - |a - b|) ∧
    (b ≤ a →
      (stepPure^[s.timeSteps] (setInitialInertiaFactor s a b)).inertiaFactor = some b) := by
  have hm : (setInitialInertiaFactor s a b).inertiaFactorMinus =
      some (|a - b| / (s.timeSteps : ℚ)) := by
    unfold setInitialInertiaFactor
    rw [if_pos hI]
  have hx : (setInitialInertiaFactor s a b).inertiaFactor = some a := by
    unfold setInitialInertiaFactor
    rw [if_pos hI]
  have hI2 : (setInitialInertiaFactor s a b).psoType = PsoType.INERTIA := by
    unfold setInitialInertiaFactor
    rw [if_pos hI]
    exact hI
  have ht2 : (setInitialInertiaFactor s a b).topology ≠ none := by
    unfold setInitialInertiaFactor
    rw [if_pos hI]
    exact ht
  have hall := stepN_inertiaFactor (setInitialInertiaFactor s a b)
    (|a - b| / (s.timeSteps : ℚ)) a hI2 ht2 hm hx
  have hTne : ((s.timeSteps : ℚ)) ≠ 0 := by
    have h0 : (0 : ℚ) < (s.timeSteps : ℚ) := by
      exact_mod_cast Nat.lt_of_lt_of_le Nat.zero_lt_one hT
    exact ne_of_gt h0
  have hfin : a - (s.timeSteps : ℚ) * (|a - b| / (s.timeSteps : ℚ)) = a - |a - b| := by
    rw [mul_comm, div_mul_cancel₀ _ hTne]
  refine ⟨hm, hx, hall, ?_, ?_⟩
  · rw [hall s.timeSteps, hfin]
  · intro hba
    rw [hall s.timeSteps, hfin, abs_of_nonneg (sub_nonneg.mpr hba)]
    congr 1
    ring

/-- Claim C4, witness: start 7, end 2 over one step: the schedule ends
exactly at the end value 2. -/
theorem claim_C4_amended_witness :
    (stepPure^[inertiaBase.timeSteps] (setInitialInertiaFactor inertiaBase 7 2)).inertiaFactor =
      some 2 :=
  (claim_C4_amended inertiaBase 7 2 rfl (by decide) (by decide)).2.2.2.2 (by norm_num)

/-- Claim C5, counterexample: with the BASIC variant,
`setInitialInertiaFactor` does NOT raise — its body is guarded by
`if self.psoType == INERTIA`, so the call returns normally with the
state unchanged, where the claim demands a configuration error. -/
theorem claim_C5_counterexample :
    baseState.psoType ≠ PsoType.INERTIA ∧
    setInitialInertiaFactor baseState 7 2 = baseState := by
  exact ⟨by decide, by decide⟩

/-- Claim C5 (amended): `setInitialInertiaFactor` is a silent no-op
(normal return, state unchanged, no exception) whenever the variant is
not INERTIA; `updateInertiaFactor` raises a `TypeError` — the
unsupported `None` operand of `-`, not a descriptive configuration
error — exactly when the schedule was never initialized
(`inertiaFactor` or `inertiaFactorMinus` still `None`). -/
theorem claim_C5_amended (s : EngineState) (a b : ℚ) :
    (s.psoType ≠ PsoType.INERTIA → setInitialInertiaFactor s a b = s) ∧
    ((∃ m, updateInertiaFactorE s = .error (PyErr.typeError m)) ↔
      s.inertiaFactor = none ∨ s.inertiaFactorMinus = none) := by
  constructor
  · intro h
    unfold setInitialInertiaFactor
    rw [if_neg h]
  · cases hx : s.inertiaFactor <;> cases hm : s.inertiaFactorMinus <;>
      simp [updateInertiaFactorE, hx, hm]

/-- Claim C5, witness: the no-op branch exercised on the BASIC base
state, and the error branch of `updateInertiaFactor` on it (its
schedule is unset). -/
theorem claim_C5_amended_witness :
    setInitialInertiaFactor baseState 1 2 = baseState ∧
    (∃ m, updateInertiaFactorE baseState = .error (PyErr.typeError m)) := by
  refine ⟨(claim_C5_amended baseState 1 2).1 (by decide), ?_⟩
  exact (claim_C5_amended baseState 1 2).2.mpr (Or.inl rfl)

/-- Claim C6, counterexample: the three-element tuple `(1, 2, 3)` is not
a well-formed `(min, max)` pair, yet `definePositionBounds` accepts and
assigns it without any error — the code checks only
`type(minMaxValue) is tuple`, never the arity — where the claim demands
a configuration error for a malformed pair. -/
theorem claim_C6_counterexample :
    wellFormedPair badTuple = false ∧
    definePositionBounds baseState 0 1 badTuple =
      .ok { baseState with positionBounds := [badTuple] } := by
  exact ⟨rfl, rfl⟩

/-- Claim C6 (amended): the two position-bound setters raise a
descriptive `TypeError` exactly when the value is not a tuple at all
(a tuple of any arity is accepted); `defineVelocityBounds` performs no
type check; each setter assigns the value to every index in
`[first, last)` and leaves every other index and every other bounds
list unchanged; and when the dimensions were never initialized (or the
range overruns the list) the assignment loop fails with an
`IndexError`, not a descriptive configuration error. -/
theorem claim_C6_amended (s : EngineState) (first last : ℕ) (v : PyVal) :
    (∀ q, definePositionBounds s first last (PyVal.num q) =
        .error (PyErr.typeError "minMaxValue type must be a tuple (a,b).")) ∧
    (∀ q, defineInitialPositionBounds s first last (PyVal.num q) =
        .error (PyErr.typeError "minMaxValue type must be a tuple (a,b).")) ∧
    (∀ xs, v = PyVal.tup xs → first ≤ last → last ≤ s.positionBounds.length →
      ∃ s2, definePositionBounds s first last v = .ok s2 ∧
        s2.initialPositionBounds = s.initialPositionBounds ∧
        s2.velocityBounds = s.velocityBounds ∧
        ∀ j, s2.positionBounds[j]? =
          if first ≤ j ∧ j < last then some v else s.positionBounds[j]?) ∧
    (∀ xs, v = PyVal.tup xs → first ≤ last → last ≤ s.initialPositionBounds.length →
      ∃ s2, defineInitialPositionBounds s first last v = .ok s2 ∧
        s2.positionBounds = s.positionBounds ∧
        s2.velocityBounds = s.velocityBounds ∧
        ∀ j, s2.initialPositionBounds[j]? =
          if first ≤ j ∧ j < last then some v else s.initialPositionBounds[j]?) ∧
    (first ≤ last → last ≤ s.velocityBounds.length →
      ∃ s2, defineVelocityBounds s first last v = .ok s2 ∧
        s2.positionBounds = s.positionBounds ∧
        s2.initialPositionBounds = s.initialPositionBounds ∧
        ∀ j, s2.velocityBounds[j]? =
          if first ≤ j ∧ j < last then some v else s.velocityBounds[j]?) ∧
    (∀ xs, v = PyVal.tup xs → first < last → s.positionBounds.length < last →
      definePositionBounds s first last v =
        .error (PyErr.indexError "list assignment index out of range")) ∧
    (first < last → s.velocityBounds.length < last →
      defineVelocityBounds s first last v =
        .error (PyErr.indexError "list assignment index out of range")) := by
  refine ⟨fun q => rfl, fun q => rfl, ?_, ?_, ?_, ?_, ?_⟩
  · rintro xs rfl hfl hle
    obtain ⟨l2, h1, h2, h3⟩ := assignRange_ok (PyVal.tup xs) (last - first) first
      s.positionBounds (by omega)
    refine ⟨{ s with positionBounds := l2 }, ?_, rfl, rfl, fun j => ?_⟩
    · unfold definePositionBounds
      rw [h1]
    · have heq : first + (last - first) = last := by omega
      rw [heq] at h3
      exact h3 j
  · rintro xs rfl hfl hle
    obtain ⟨l2, h1, h2, h3⟩ := assignRange_ok (PyVal.tup xs) (last - first) first
      s.initialPositionBounds (by omega)
    refine ⟨{ s with initialPositionBounds := l2 }, ?_, rfl, rfl, fun j => ?_⟩
    · unfold defineInitialPositionBounds
      rw [h1]
    · have heq : first + (last - first) = last := by omega
      rw [heq] at h3
      exact h3 j
  · intro hfl hle
    obtain ⟨l2, h1, h2, h3⟩ := assignRange_ok v (last - first) first
      s.velocityBounds (by omega)
    refine ⟨{ s with velocityBounds := l2 }, ?_, rfl, rfl, fun j => ?_⟩
    · unfold defineVelocityBounds
      rw [h1]
    · have heq : first + (last - first) = last := by omega
      rw [heq] at h3
      exact h3 j
  · rintro xs rfl hfl hlen
    unfold definePositionBounds
    rw [assignRange_err (PyVal.tup xs) (last - first) first s.positionBounds
      (by omega) (by omega)]
  · intro hfl hlen
    unfold defineVelocityBounds
    rw [assignRange_err v (last - first) first s.velocityBounds
      (by omega) (by omega)]

/-- Claim C6, witness: assigning the pair `(0, 5)` to dimension 0 of the
one-dimensional base configuration succeeds and rewrites exactly that
index. -/
theorem claim_C6_amended_witness :
    ∃ s2, definePositionBounds baseState 0 1 (PyVal.tup [0, 5]) = .ok s2 ∧
      s2.initialPositionBounds = baseState.initialPositionBounds ∧
      s2.velocityBounds = baseState.velocityBounds ∧
      ∀ j, s2.positionBounds[j]? =
        if 0 ≤ j ∧ j < 1 then some (PyVal.tup [0, 5]) else baseState.positionBounds[j]? :=
  (claim_C6_amended baseState 0 1 (PyVal.tup [0, 5])).2.2.1 [0, 5] rfl
    (by omega) (by decide)

theorem timeElapsed_not_mem_loopEvs (freq : ℕ) (gf : Option ℕ) (a n : ℕ) :
    Ev.timeElapsed ∉ loopEvs freq gf a n := by
  intro h
  obtain ⟨st, hst, _, _⟩ := mem_loopEvs freq gf _ n a h
  rcases hst with h1 | h1 <;> exact Ev.noConfusion h1

theorem saveAndClose_not_mem_loopEvs (freq : ℕ) (gf : Option ℕ) (a n : ℕ) :
    Ev.saveAndClose ∉ loopEvs freq gf a n := by
  intro h
  obtain ⟨st, hst, _, _⟩ := mem_loopEvs freq gf _ n a h
  rcases hst with h1 | h1 <;> exact Ev.noConfusion h1

theorem printStats_late_not_mem_loopEvs (freq : ℕ) (gf : Option ℕ) (a n T : ℕ)
    (hb : a + n ≤ T) : Ev.printStats T ∉ loopEvs freq gf a n := by
  intro h
  obtain ⟨st, hst, hb1, hb2⟩ := mem_loopEvs freq gf _ n a h
  rcases hst with h1 | h1
  · cases h1
    omega
  · exact Ev.noConfusion h1

theorem insertReport_late_not_mem_loopEvs (freq : ℕ) (gf : Option ℕ) (a n T : ℕ)
    (hb : a + n ≤ T) : Ev.insertReport T ∉ loopEvs freq gf a n := by
  intro h
  obtain ⟨st, hst, hb1, hb2⟩ := mem_loopEvs freq gf _ n a h
  rcases hst with h1 | h1
  · exact Ev.noConfusion h1
  · cases h1
    omega

/-- Claim C8, counterexample: a normally terminating run with
`timeSteps = 3` and a configured adapter with `statsGenFreq = 2` never
calls `saveAndClose` (3 % 2 != 0 at the final guard), where the claim
demands the adapter be flushed and closed whenever one is configured. -/
theorem claim_C8_counterexample :
    cexC8.reportAdapter = some { statsGenFreq := 2 } ∧
    isOkRun (execute cexC8 1 none 3) = true ∧
    okStep (execute cexC8 1 none 3) = 3 ∧
    Ev.saveAndClose ∉ okEvs (execute cexC8 1 none 3) ∧
    Ev.insertReport 3 ∉ okEvs (execute cexC8 1 none 3) := by
  refine ⟨rfl, rfl, rfl, by decide, by decide⟩

/-- Claim C8 (amended): on normal termination (`currentStep` reaches
`timeSteps`), `printStats` / `printTimeElapsed` run iff
`freq_stats != 0`, and the final report insert plus `saveAndClose` run
iff an adapter is configured AND `timeSteps` is a multiple of its
`statsGenFreq`. -/
theorem claim_C8_amended (s : EngineState) (freq fuel : ℕ)
    (hok : checkParametersSet s = .ok s) (had : adOk s)
    (hc : s.currentStep = 0) (hT : 1 ≤ s.timeSteps) (hf : s.timeSteps ≤ fuel) :
    isOkRun (execute s freq none fuel) = true ∧
    okStep (execute s freq none fuel) = s.timeSteps ∧
    (Ev.timeElapsed ∈ okEvs (execute s freq none fuel) ↔ freq ≠ 0) ∧
    (Ev.printStats s.timeSteps ∈ okEvs (execute s freq none fuel) ↔ freq ≠ 0) ∧
    (Ev.saveAndClose ∈ okEvs (execute s freq none fuel) ↔
      ∃ ad, s.reportAdapter = some ad ∧ s.timeSteps % ad.statsGenFreq = 0) ∧
    (Ev.insertReport s.timeSteps ∈ okEvs (execute s freq none fuel) ↔
      ∃ ad, s.reportAdapter = some ad ∧ s.timeSteps % ad.statsGenFreq = 0) := by
  obtain ⟨hex, hcs, hra⟩ := execute_run s freq fuel hok had hc hT hf
  have hnt := timeElapsed_not_mem_loopEvs freq (gfOf s) 1 (s.timeSteps - 1)
  have hns := saveAndClose_not_mem_loopEvs freq (gfOf s) 1 (s.timeSteps - 1)
  have hnp := printStats_late_not_mem_loopEvs freq (gfOf s) 1 (s.timeSteps - 1)
    s.timeSteps (by omega)
  have hni := insertReport_late_not_mem_loopEvs freq (gfOf s) 1 (s.timeSteps - 1)
    s.timeSteps (by omega)
  rw [hex]
  refine ⟨rfl, hcs, ?_, ?_, ?_, ?_⟩ <;>
    (cases hAd : s.reportAdapter with
    | none =>
      by_cases hfq : freq = 0
      · subst hfq
        simp [okEvs, hAd, hnt, hns, hnp, hni]
      · simp [okEvs, hAd, hfq, hnt, hns, hnp, hni]
    | some ad =>
      by_cases hfq : freq = 0
      · subst hfq
        by_cases hmod : s.timeSteps % ad.statsGenFreq = 0 <;>
          simp [okEvs, hAd, hmod, hnt, hns, hnp, hni]
      · by_cases hmod : s.timeSteps % ad.statsGenFreq = 0 <;>
          simp [okEvs, hAd, hfq, hmod, hnt, hns, hnp, hni])

theorem adOk_of_some (s : EngineState) (g : ℕ)
    (h : s.reportAdapter = some { statsGenFreq := g }) (hg : g ≠ 0) : adOk s := by
  unfold adOk
  rw [h]
  exact hg

/-- Claim C9, counterexample: with the default printing frequency
`freq_stats = 0` and an adapter with `statsGenFreq = 1` over a
three-step run, the claim predicts one insert per step; the code emits
NO periodic insert at all (the report dump is nested inside
`if freq_stats != 0`) — only the final-guard insert at step 3 — so the
periodic emission is not decoupled from the printing frequency. -/
theorem claim_C9_counterexample :
    cexC9.reportAdapter = some { statsGenFreq := 1 } ∧
    isOkRun (execute cexC9 0 none 3) = true ∧
    okStep (execute cexC9 0 none 3) = 3 ∧
    Ev.insertReport 1 ∉ okEvs (execute cexC9 0 none 3) ∧
    Ev.insertReport 2 ∉ okEvs (execute cexC9 0 none 3) := by
  refine ⟨rfl, rfl, rfl, by decide, by decide⟩

/-- Claim C9 (amended): when an adapter is configured, `execute` opens
it before the loop; periodic inserts happen at every step in
`[1, timeSteps)` divisible by `statsGenFreq` but ONLY when
`freq_stats != 0` (the dump is nested under the printing-frequency
check), followed by the final insert and `saveAndClose` exactly when
`timeSteps` is a multiple of `statsGenFreq`; when no adapter is
configured, the run performs the same `timeSteps` steps with no report
calls at all. -/
theorem claim_C9_amended (s : EngineState) (freq fuel : ℕ)
    (hok : checkParametersSet s = .ok s) (had : adOk s)
    (hc : s.currentStep = 0) (hT : 1 ≤ s.timeSteps) (hf : s.timeSteps ≤ fuel) :
    isOkRun (execute s freq none fuel) = true ∧
    okStep (execute s freq none fuel) = s.timeSteps ∧
    (okEvs (execute s freq none fuel)).filter isReportEv =
      (match s.reportAdapter with
       | none => []
       | some ad =>
         Ev.reportOpen ::
           (insertsIn freq ad.statsGenFreq 1 (s.timeSteps - 1) ++
             (if s.timeSteps % ad.statsGenFreq = 0 then
               [Ev.insertReport s.timeSteps, Ev.saveAndClose] else []))) := by
  obtain ⟨hex, hcs, hra⟩ := execute_run s freq fuel hok had hc hT hf
  rw [hex]
  refine ⟨rfl, hcs, ?_⟩
  cases hAd : s.reportAdapter with
  | none =>
    have hfl := filter_loopEvs_none freq (s.timeSteps - 1) 1
    have hgf : gfOf s = none := by
      unfold gfOf
      rw [hAd]
    rw [hgf] at hex ⊢
    by_cases hfq : freq = 0
    · subst hfq
      simp [okEvs, hAd, List.filter_append, hfl, isReportEv]
    · simp [okEvs, hAd, hfq, List.filter_append, hfl, isReportEv]
  | some ad =>
    have hfl := filter_loopEvs_some freq ad.statsGenFreq (s.timeSteps - 1) 1
    have hgf : gfOf s = some ad.statsGenFreq := by
      unfold gfOf
      rw [hAd]
    rw [hgf] at hex ⊢
    by_cases hfq : freq = 0
    · subst hfq
      by_cases hmod : s.timeSteps % ad.statsGenFreq = 0 <;>
        simp [okEvs, hAd, hmod, List.filter_append, hfl, isReportEv]
    · by_cases hmod : s.timeSteps % ad.statsGenFreq = 0 <;>
        simp [okEvs, hAd, hfq, hmod, List.filter_append, hfl, isReportEv]

/-- Claim C9, witness: a run with printing on (`freq_stats = 1`),
three steps and `statsGenFreq = 2`: one periodic insert (step 2), no
final insert. -/
theorem claim_C9_amended_witness :
    isOkRun (execute cexC8 1 none 3) = true ∧
    okStep (execute cexC8 1 none 3) = cexC8.timeSteps ∧
    (okEvs (execute cexC8 1 none 3)).filter isReportEv =
      (match cexC8.reportAdapter with
       | none => []
       | some ad =>
         Ev.reportOpen ::
           (insertsIn 1 ad.statsGenFreq 1 (cexC8.timeSteps - 1) ++
             (if cexC8.timeSteps % ad.statsGenFreq = 0 then
               [Ev.insertReport cexC8.timeSteps, Ev.saveAndClose] else []))) :=
  claim_C9_amended cexC8 1 3 rfl (adOk_of_some cexC8 2 rfl (by decide)) rfl (by decide) (by decide)

/-- Claim C7, counterexample: a run with printing on, five steps, an
adapter with `statsGenFreq = 2`, interrupted after step 3: the loop
stops cleanly and the final `printStats` runs, but the final report
dump and `saveAndClose` are skipped (3 % 2 != 0), where the claim says
the final report dump is still attempted whenever an adapter is
configured. -/
theorem claim_C7_counterexample :
    cexC7.reportAdapter = some { statsGenFreq := 2 } ∧
    isOkRun (execute cexC7 1 (some 3) 5) = true ∧
    okStep (execute cexC7 1 (some 3) 5) = 3 ∧
    Ev.printStats 3 ∈ okEvs (execute cexC7 1 (some 3) 5) ∧
    Ev.saveAndClose ∉ okEvs (execute cexC7 1 (some 3) 5) ∧
    Ev.insertReport 3 ∉ okEvs (execute cexC7 1 (some 3) 5) := by
  refine ⟨rfl, rfl, rfl, by decide, by decide, by decide⟩

/-- Claim C7 (amended): an external interrupt delivered after `k`
completed steps (1 <= k < timeSteps) is swallowed by the
`except KeyboardInterrupt` handler: `execute` returns normally, the
final state is exactly the partial state after `k` steps
(`currentStep = k`), and the post-loop statistics run conditionally —
`printStats` / `printTimeElapsed` iff `freq_stats != 0`, and the final
report dump plus `saveAndClose` iff an adapter is configured and the
last completed step `k` is a multiple of its `statsGenFreq`. -/
theorem claim_C7_amended (s : EngineState) (freq fuel k : ℕ)
    (hok : checkParametersSet s = .ok s) (had : adOk s)
    (hc : s.currentStep = 0) (hk1 : 1 ≤ k) (hkT : k < s.timeSteps)
    (hf : s.timeSteps ≤ fuel) :
    isOkRun (execute s freq (some k) fuel) = true ∧
    okStep (execute s freq (some k) fuel) = k ∧
    (execute s freq (some k) fuel).toOption.map Prod.fst =
      some (stepPure^[k] (topInitState s)) ∧
    (Ev.timeElapsed ∈ okEvs (execute s freq (some k) fuel) ↔ freq ≠ 0) ∧
    (Ev.printStats k ∈ okEvs (execute s freq (some k) fuel) ↔ freq ≠ 0) ∧
    (Ev.saveAndClose ∈ okEvs (execute s freq (some k) fuel) ↔
      ∃ ad, s.reportAdapter = some ad ∧ k % ad.statsGenFreq = 0) ∧
    (Ev.insertReport k ∈ okEvs (execute s freq (some k) fuel) ↔
      ∃ ad, s.reportAdapter = some ad ∧ k % ad.statsGenFreq = 0) := by
  obtain ⟨hex, hcs⟩ := execute_intr s freq fuel k hok had hc hk1 hkT hf
  have hnt := timeElapsed_not_mem_loopEvs freq (gfOf s) 1 (k - 1)
  have hns := saveAndClose_not_mem_loopEvs freq (gfOf s) 1 (k - 1)
  have hnp := printStats_late_not_mem_loopEvs freq (gfOf s) 1 (k - 1) k (by omega)
  have hni := insertReport_late_not_mem_loopEvs freq (gfOf s) 1 (k - 1) k (by omega)
  rw [hex]
  refine ⟨rfl, hcs, rfl, ?_, ?_, ?_, ?_⟩ <;>
    (cases hAd : s.reportAdapter with
    | none =>
      by_cases hfq : freq = 0
      · subst hfq
        simp [okEvs, hAd, hnt, hns, hnp, hni]
      · simp [okEvs, hAd, hfq, hnt, hns, hnp, hni]
    | some ad =>
      by_cases hfq : freq = 0
      · subst hfq
        by_cases hmod : k % ad.statsGenFreq = 0 <;>
          simp [okEvs, hAd, hmod, hnt, hns, hnp, hni]
      · by_cases hmod : k % ad.statsGenFreq = 0 <;>
          simp [okEvs, hAd, hfq, hmod, hnt, hns, hnp, hni])

/-- Claim C7, witness: the interrupted five-step run stopping after
step 3 with printing on. -/
theorem claim_C7_amended_witness :
    isOkRun (execute cexC7 1 (some 3) 5) = true ∧
    okStep (execute cexC7 1 (some 3) 5) = 3 ∧
    (Ev.timeElapsed ∈ okEvs (execute cexC7 1 (some 3) 5) ↔ (1 : ℕ) ≠ 0) := by
  have h := claim_C7_amended cexC7 1 5 3 rfl (adOk_of_some cexC7 2 rfl (by decide)) rfl
    (by decide) (by decide) (by decide)
  exact ⟨h.1, h.2.1, h.2.2.2.1⟩

/-- Claim C10: both `PSO()` handles delegate attribute reads and writes
to the single shared class-level instance `PSO._iInstance`: constructing
a second handle leaves the shared instance untouched; a value written
through either of the two handles is read back through the other; any
write delegates identically regardless of the handle used; and a later
`PSO()` construction after a write preserves the written configuration
(the constructor only creates the singleton when `_iInstance is None`). -/
theorem claim_C10 (a : String) (v : ℤ) :
    (psoConstruct freshProc).1.iInstance = some [] ∧
    ((psoConstruct (psoConstruct freshProc).1).1).iInstance =
      (psoConstruct freshProc).1.iInstance ∧
    psoGetattr
      (psoSetattr (psoConstruct (psoConstruct freshProc).1).1
        (psoConstruct freshProc).2 a v)
      (psoConstruct (psoConstruct freshProc).1).2 a = some v ∧
    psoGetattr
      (psoSetattr (psoConstruct (psoConstruct freshProc).1).1
        (psoConstruct (psoConstruct freshProc).1).2 a v)
      (psoConstruct freshProc).2 a = some v ∧
    (∀ p : ProcState, ∀ hA hB : PSOHandle,
      psoSetattr (psoConstruct p).1 hA a v = psoSetattr (psoConstruct p).1 hB a v) ∧
    (psoConstruct
        (psoSetattr (psoConstruct (psoConstruct freshProc).1).1
          (psoConstruct freshProc).2 a v)).1.iInstance =
      (psoSetattr (psoConstruct (psoConstruct freshProc).1).1
        (psoConstruct freshProc).2 a v).iInstance := by
  refine ⟨rfl, rfl, ?_, ?_, fun p hA hB => rfl, ?_⟩
  · simp [psoConstruct, psoSetattr, psoGetattr, freshProc, attrsSet, attrsGet]
  · simp [psoConstruct, psoSetattr, psoGetattr, freshProc, attrsSet, attrsGet]
  · simp [psoConstruct, psoSetattr, freshProc]

/-- Claim C8, witness: three steps with `statsGenFreq = 1` (which
divides 3): the adapter IS flushed and closed. -/
theorem claim_C8_amended_witness :
    Ev.saveAndClose ∈ okEvs (execute cexC9 1 none 3) ↔
      ∃ ad, cexC9.reportAdapter = some ad ∧ cexC9.timeSteps % ad.statsGenFreq = 0 :=
  (claim_C8_amended cexC9 1 3 rfl (adOk_of_some cexC9 1 rfl (by decide)) rfl
    (by decide) (by decide)).2.2.2.2.1
